import Mathlib

/-!
Verification of the milestone windowing, scrolling, classification,
countdown, data-loading and timestamp-formatting logic of the
`unixClock` browser widget (`script.js`).  Each JavaScript function used
by the specification is embedded as an executable Lean definition, and
the spec's properties are proved about those definitions.

Conventions: JavaScript numbers that hold Unix timestamps and scroll
offsets are modelled as `Int`; the JavaScript `%` operator (truncated
remainder, sign of the dividend) is modelled by `Int.tmod`.
-/

/-- A milestone record: `timestamp` (seconds since epoch), `description`,
and an optional `significance` note. -/
structure Milestone where
  timestamp : Int
  description : String
  significance : Option String
deriving Repr, DecidableEq, Inhabited

/-- The comparator `(a, b) => a.timestamp - b.timestamp` used with
`Array.prototype.sort`: ascending order by timestamp. -/
def tsLe (a b : Milestone) : Bool :=
  a.timestamp ≤ b.timestamp

/-- `[...arr].sort((a, b) => a.timestamp - b.timestamp)`: a stable
ascending sort by timestamp. -/
def sortByTimestamp (ms : List Milestone) : List Milestone :=
  ms.mergeSort tsLe

/-- The `MilestoneSet` ordering invariant: sorted ascending by timestamp. -/
def SortedByTs (ms : List Milestone) : Prop :=
  List.Pairwise (fun a b => a.timestamp ≤ b.timestamp) ms

instance : DecidablePred SortedByTs := fun ms =>
  inferInstanceAs (Decidable (List.Pairwise _ ms))

/-- Lines 313–314 of `script.js`:
`firstFutureIndex = allMilestones.findIndex(m => m.timestamp > currentTimestamp)`
and `pastCount = firstFutureIndex === -1 ? allMilestones.length : firstFutureIndex`.
`List.findIdx` already returns the length when no element matches, which
is exactly the `-1` normalisation. -/
def pastCountOf (ms : List Milestone) (now : Int) : Nat :=
  ms.findIdx (fun m => decide (m.timestamp > now))

/-- Line 332 of `script.js`:
`((startIndex + i) % totalMilestones + totalMilestones) % totalMilestones`,
with JavaScript `%` rendered as `Int.tmod`. -/
def wrapIndex (startIndex : Int) (i : Nat) (total : Nat) : Nat :=
  (Int.tmod (Int.tmod (startIndex + (i : Int)) (total : Int) + (total : Int)) (total : Int)).toNat

/-- The indices visited by the window-building loop of lines 330–334:
`for (i = 0; i < Math.min(6, totalMilestones); i++)`. -/
def windowIndices (total : Nat) (startIndex : Int) : List Nat :=
  (List.range (min 6 total)).map (fun i => wrapIndex startIndex i total)

/-- `updateVisibleMilestones` (lines 299–346 of `script.js`) as a pure
function of the milestone list, the current timestamp and the scroll
offset, returning the `(top, bottom)` visible window. -/
def updateVisibleMilestones (msIn : List Milestone) (now offset : Int) :
    List Milestone × List Milestone :=
  let totalMilestones := msIn.length
  if totalMilestones = 0 then ([], [])
  else
    let allMilestones := sortByTimestamp msIn
    let pastCount := pastCountOf allMilestones now
    let baseStartIndex : Int :=
      if pastCount ≥ 3 then (pastCount : Int) - 3 else max 0 ((pastCount : Int) - 3)
    let startIndex := baseStartIndex + offset
    let visibleMilestones :=
      (windowIndices totalMilestones startIndex).map
        (fun idx => allMilestones.getD idx default)
    if totalMilestones < 6 then
      (visibleMilestones.take (min 3 visibleMilestones.length),
       visibleMilestones.drop 3)
    else
      (visibleMilestones.take 3, (visibleMilestones.drop 3).take 3)

/-- The part of the `UnixClock` mutable state that the milestone logic
reads and writes. -/
structure ClockState where
  allMilestones : List Milestone
  currentTimestamp : Int
  milestoneOffset : Int
  visibleTop : List Milestone
  visibleBottom : List Milestone
deriving Repr, DecidableEq

/-- Recompute `state.visibleMilestones` from the current state, as
`updateVisibleMilestones()` does on the state object. -/
def recomputeVisible (s : ClockState) : ClockState :=
  let p := updateVisibleMilestones s.allMilestones s.currentTimestamp s.milestoneOffset
  { s with visibleTop := p.1, visibleBottom := p.2 }

/-- `scrollMilestones(direction)` (lines 490–507 of `script.js`): returns
unchanged state when `totalMilestones <= 6`, otherwise adds `direction`
to the offset and recomputes the visible window. -/
def scrollMilestones (s : ClockState) (direction : Int) : ClockState :=
  if s.allMilestones.length ≤ 6 then s
  else recomputeVisible { s with milestoneOffset := s.milestoneOffset + direction }

/-- Line 602 of `script.js` (`createMilestoneCard`):
`isPast = milestone.timestamp <= this.state.currentTimestamp`, the same
predicate used by `updateMilestoneStates` (line 814). -/
def isPastMilestone (timestamp now : Int) : Bool :=
  decide (timestamp ≤ now)

/-- Line 603 of `script.js`: `card.classList.add(isPast ? 'past' : 'future')`. -/
def milestoneCardClass (m : Milestone) (now : Int) : String :=
  if isPastMilestone m.timestamp now then "past" else "future"

/-- The record returned by `calculateCountdown`. -/
structure Countdown where
  isPast : Bool
  years : Nat
  days : Nat
  hours : Nat
  minutes : Nat
  seconds : Nat
  totalSeconds : Nat
deriving Repr, DecidableEq

/-- `calculateCountdown(milestoneTimestamp, currentTimestamp)`
(lines 677–697 of `script.js`).  `timeDiff = Math.abs(a - b)` is the
non-negative difference, so the unit arithmetic is `Nat` arithmetic;
`365.25 * 24 * 3600 = 31557600` exactly. -/
def calculateCountdown (milestoneTimestamp currentTimestamp : Int) : Countdown :=
  let timeDiff := (milestoneTimestamp - currentTimestamp).natAbs
  let isPast := decide (milestoneTimestamp ≤ currentTimestamp)
  { isPast := isPast
    years := timeDiff / 31557600
    days := (timeDiff % 31557600) / 86400
    hours := (timeDiff % 86400) / 3600
    minutes := (timeDiff % 3600) / 60
    seconds := timeDiff % 60
    totalSeconds := timeDiff }

/-- Digit grouping used by `createSpacedTimestamp` (lines 99–119): split
the character list into groups of 3 from the right; the leftmost group
keeps the 1–3 remaining characters.  This is the `while` loop of
lines 105–113 acting on the string's characters. -/
def groupDigitsAux (l : List Char) : List (List Char) :=
  if _h0 : l.length = 0 then []
  else if _h3 : l.length ≤ 3 then [l]
  else groupDigitsAux (l.take (l.length - 3)) ++ [l.drop (l.length - 3)]
termination_by l.length
decreasing_by simp [List.length_take]; omega

/-- The `groups` array computed by `createSpacedTimestamp(timestamp)`
from `timestamp.toString()`. -/
def digitGroups (s : String) : List String :=
  (groupDigitsAux s.data).map String.mk

/-- `createSpacedTimestamp(timestamp)` (lines 99–119 of `script.js`):
wrap each digit group in a `span` and concatenate. -/
def createSpacedTimestamp (timestamp : Nat) : String :=
  String.join ((digitGroups (Nat.repr timestamp)).mapIdx
    (fun index group =>
      "<span class=" ++ "\"digit-group\" data-group=\"" ++ Nat.repr index
        ++ "\">" ++ group ++ "</span>"))

/-- The pair returned by `formatCountdownUnix`. -/
structure CountdownDisplay where
  seconds : String
  direction : String
deriving Repr, DecidableEq

/-- `formatCountdownUnix(countdown)` (lines 752–759 of `script.js`). -/
def formatCountdownUnix (c : Countdown) : CountdownDisplay :=
  { seconds := createSpacedTimestamp c.totalSeconds
    direction := if c.isPast then "ago" else "from now" }

/-- A dynamically-typed JSON field value, as far as the validation code
inspects it: a number, a string, or anything else. -/
inductive JsonField where
  | num (n : Int)
  | str (s : String)
  | other
deriving Repr, DecidableEq

/-- One element of the incoming `milestones` array, before validation:
the fields the validator reads, each possibly of the wrong type. -/
structure RawRecord where
  timestamp : JsonField
  description : JsonField
  significance : Option String
deriving Repr, DecidableEq

/-- JavaScript `String.prototype.trim()`: strip whitespace from both
ends.  (Executable counterpart of `String.trim`, which the kernel cannot
reduce.) -/
def jsTrim (s : String) : String :=
  String.mk (((s.data.dropWhile Char.isWhitespace).reverse.dropWhile
    Char.isWhitespace).reverse)

/-- The filter predicate of `validateMilestoneData` (lines 168–173 of
`script.js`): the element is an object (`some`), its `timestamp` is a
non-negative number and its `description` is a string whose trim is
non-empty.  `none` models a non-object array element. -/
def validRecord (r : Option RawRecord) : Bool :=
  match r with
  | none => false
  | some m =>
    (match m.timestamp with
     | .num n => decide (0 ≤ n)
     | _ => false) &&
    (match m.description with
     | .str s => decide (jsTrim s ≠ "")
     | _ => false)

/-- `validateMilestoneData(data)` (lines 163–180 of `script.js`).
`none` input models `data` missing or `data.milestones` not an array;
both error branches are the two `throw` statements. -/
def validateMilestoneData (data : Option (List (Option RawRecord))) :
    Except String (List RawRecord) :=
  match data with
  | none => .error "Invalid milestone data: Expected array of milestones"
  | some arr =>
    let validMilestones := arr.filter validRecord
    if validMilestones.length = 0 then .error "No valid milestones found in data"
    else .ok (validMilestones.filterMap (fun r => r))

/-- Conversion of a validated raw record to a `Milestone` (the JavaScript
code keeps the raw object; a record passing `validRecord` has a numeric
timestamp and a string description, so the fallback arms are never hit). -/
def toMilestone (r : RawRecord) : Milestone :=
  { timestamp := match r.timestamp with | .num n => n | _ => 0
    description := match r.description with | .str s => s | _ => ""
    significance := r.significance }

/-- `getFallbackMilestones()` (lines 218–236 of `script.js`). -/
def getFallbackMilestones : List Milestone :=
  [ { timestamp := 1000000000
      description := "Unix timestamp reached 1 billion"
      significance := some "Billionth second since epoch - September 9, 2001" },
    { timestamp := 2000000000
      description := "Unix timestamp reaches 2 billion"
      significance := some "Future milestone - May 18, 2033" },
    { timestamp := 2147483647
      description := "32-bit signed integer limit"
      significance := some "Y2038 problem boundary - January 19, 2038" } ]

/-- The outcome of the `fetch` + `response.json()` steps of
`loadMilestones`: either a failure (network error, non-ok status,
malformed JSON) or a parsed document. -/
inductive FetchResult where
  | fetchError
  | ok (data : Option (List (Option RawRecord)))
deriving Repr, DecidableEq

/-- `loadMilestones()` (lines 185–213 of `script.js`) as a function of
the fetch outcome: on any failure (including validation failure) the
fallback set is stored; on success the validated records are capped at
`maxMilestones = 20` and sorted chronologically. -/
def loadMilestones (fr : FetchResult) : List Milestone :=
  match fr with
  | .fetchError => getFallbackMilestones
  | .ok data =>
    match validateMilestoneData data with
    | .error _ => getFallbackMilestones
    | .ok valid => sortByTimestamp ((valid.map toMilestone).take 20)

/-- Truncated remainder by a positive modulus is strictly above `-b`. -/
lemma tmod_gt_neg (a : Int) {b : Int} (h : 0 < b) : -b < a.tmod b := by
  rcases le_or_lt 0 a with ha | ha
  · have := Int.tmod_nonneg b ha
    omega
  · have h1 : (-a).tmod b = -(a.tmod b) := by
      rw [Int.tmod_def, Int.tmod_def, Int.neg_tdiv]
      ring
    have h2 : (-a).tmod b < b := Int.tmod_lt_of_pos _ h
    omega

/-- The double-modulo normalisation of line 332 computes the Euclidean
remainder: `((x % N) + N) % N` in JavaScript equals `x.emod N`. -/
lemma tmod_normalize (x : Int) {N : Int} (hN : 0 < N) :
    (x.tmod N + N).tmod N = x % N := by
  have hlow : -N < x.tmod N := tmod_gt_neg x hN
  have hnn : 0 ≤ x.tmod N + N := by omega
  rw [Int.tmod_eq_emod hnn (le_of_lt hN)]
  rw [Int.tmod_def]
  have hrw : x - N * x.tdiv N + N = x + N * (1 - x.tdiv N) := by ring
  rw [hrw, Int.add_mul_emod_self_left]

/-- `wrapIndex` as an Euclidean remainder. -/
lemma wrapIndex_eq_emod (s : Int) (i total : Nat) (h : 0 < total) :
    (wrapIndex s i total : Int) = (s + (i : Int)) % (total : Int) := by
  have hN : (0 : Int) < (total : Int) := by exact_mod_cast h
  unfold wrapIndex
  rw [tmod_normalize _ hN]
  exact Int.toNat_of_nonneg (Int.emod_nonneg _ (by omega))

/-- `wrapIndex` lands inside the array. -/
lemma wrapIndex_lt (s : Int) (i total : Nat) (h : 0 < total) :
    wrapIndex s i total < total := by
  have hN : (0 : Int) < (total : Int) := by exact_mod_cast h
  have h1 := wrapIndex_eq_emod s i total h
  have h2 : (s + (i : Int)) % (total : Int) < total := Int.emod_lt_of_pos _ hN
  omega

/-- Sorting an already-sorted milestone list leaves it unchanged
(`mergeSort` is stable). -/
lemma sortByTimestamp_eq_of_sorted {ms : List Milestone} (h : SortedByTs ms) :
    sortByTimestamp ms = ms := by
  apply List.mergeSort_of_sorted
  exact h.imp (fun hab => by simpa [tsLe] using hab)

/-- CLAIM C1: for every ascending milestone list, every `now` and every
`offset`, the visible window satisfies
`len(above) + len(below) = min 6 N`; and the empty list yields two empty
sequences. -/
theorem claim1_window_size (ms : List Milestone) (now offset : Int)
    (_hs : SortedByTs ms) :
    ((updateVisibleMilestones ms now offset).1.length
        + (updateVisibleMilestones ms now offset).2.length = min 6 ms.length)
      ∧ updateVisibleMilestones [] now offset = ([], []) := by
  constructor
  · unfold updateVisibleMilestones
    simp only []
    split
    · rename_i h0
      simp [h0]
    · rename_i h0
      split
      · rename_i hlt
        simp [windowIndices]
        omega
      · rename_i hge
        simp [windowIndices]
        omega
  · rfl

/-- Witness for C1 at a concrete sorted list. -/
theorem claim1_window_size_witness :
    SortedByTs getFallbackMilestones
      ∧ (((updateVisibleMilestones getFallbackMilestones 0 5).1.length
            + (updateVisibleMilestones getFallbackMilestones 0 5).2.length
            = min 6 getFallbackMilestones.length)
          ∧ updateVisibleMilestones [] 0 5 = ([], [])) :=
  ⟨by decide, claim1_window_size getFallbackMilestones 0 5 (by decide)⟩

/-- Adding a whole multiple of the list length to the start index does
not change the window indices. -/
lemma wrapIndex_add_mul (s k : Int) (i total : Nat) (h : 0 < total) :
    wrapIndex (s + (total : Int) * k) i total = wrapIndex s i total := by
  have h1 := wrapIndex_eq_emod (s + (total : Int) * k) i total h
  have h2 := wrapIndex_eq_emod s i total h
  have h3 : (s + (total : Int) * k + (i : Int)) % (total : Int)
      = (s + (i : Int)) % (total : Int) := by
    have hrw : s + (total : Int) * k + (i : Int)
        = (s + (i : Int)) + (total : Int) * k := by ring
    rw [hrw, Int.add_mul_emod_self_left]
  omega

/-- Full-cycle invariance of the index window. -/
lemma windowIndices_add_mul (total : Nat) (s k : Int) (h : 0 < total) :
    windowIndices total (s + (total : Int) * k) = windowIndices total s := by
  unfold windowIndices
  exact List.map_congr_left (fun i _ => wrapIndex_add_mul s k i total h)

/-- CLAIM C2: full-cycle invariance — for a sorted list of size `N ≥ 1`,
scrolling by `offset + N * k` shows exactly the same window as scrolling
by `offset`, for every integer `k`. -/
theorem claim2_full_cycle (ms : List Milestone) (now offset k : Int)
    (_hs : SortedByTs ms) (h1 : 1 ≤ ms.length) :
    updateVisibleMilestones ms now (offset + (ms.length : Int) * k)
      = updateVisibleMilestones ms now offset := by
  have hN : 0 < ms.length := h1
  have key : ∀ base : Int,
      windowIndices ms.length (base + (offset + (ms.length : Int) * k))
        = windowIndices ms.length (base + offset) := by
    intro base
    have hrw : base + (offset + (ms.length : Int) * k)
        = (base + offset) + (ms.length : Int) * k := by ring
    rw [hrw, windowIndices_add_mul _ _ _ hN]
  unfold updateVisibleMilestones
  simp only [key]

/-- Witness for C2 on the 3-element fallback list with `k = -4`. -/
theorem claim2_full_cycle_witness :
    SortedByTs getFallbackMilestones ∧ 1 ≤ getFallbackMilestones.length
      ∧ updateVisibleMilestones getFallbackMilestones 0
          (2 + (getFallbackMilestones.length : Int) * (-4))
        = updateVisibleMilestones getFallbackMilestones 0 2 :=
  ⟨by decide, by decide,
    claim2_full_cycle getFallbackMilestones 0 2 (-4) (by decide) (by decide)⟩

/-- When at least 6 milestones exist, the 6 window positions are pairwise
distinct indices of the list. -/
lemma windowIndices_nodup (total : Nat) (s : Int) (h6 : 6 ≤ total) :
    (windowIndices total s).Nodup := by
  have hpos : 0 < total := by omega
  unfold windowIndices
  apply List.Nodup.map_on _ (List.nodup_range _)
  intro i hi j hj heq
  simp only [List.mem_range] at hi hj
  have hi6 : i < 6 := lt_of_lt_of_le hi (min_le_left _ _)
  have hj6 : j < 6 := lt_of_lt_of_le hj (min_le_left _ _)
  have e1 := wrapIndex_eq_emod s i total hpos
  have e2 := wrapIndex_eq_emod s j total hpos
  have hmod : (s + (i : Int)) % (total : Int) = (s + (j : Int)) % (total : Int) := by
    omega
  have hsub : ((s + (i : Int)) - (s + (j : Int))) % (total : Int) = 0 :=
    Int.emod_eq_emod_iff_emod_sub_eq_zero.mp hmod
  have hsub' : ((i : Int) - (j : Int)) % (total : Int) = 0 := by
    have hrw : (s + (i : Int)) - (s + (j : Int)) = (i : Int) - (j : Int) := by ring
    rwa [hrw] at hsub
  have hdvd : (total : Int) ∣ ((i : Int) - (j : Int)) :=
    Int.dvd_of_emod_eq_zero hsub'
  have habs : |(i : Int) - (j : Int)| < (total : Int) := by
    rw [abs_lt]
    constructor <;> omega
  have hz := Int.eq_zero_of_abs_lt_dvd hdvd habs
  omega

/-- A list of length 6 is recovered from its `take 3` and the next 3. -/
lemma take3_drop3_of_length_six {α : Type} (v : List α) (h : v.length = 6) :
    v.take 3 ++ (v.drop 3).take 3 = v := by
  rw [List.take_of_length_le (show (List.drop 3 v).length ≤ 3 by simp [h]),
    List.take_append_drop]

/-- CLAIM C3: for a sorted list with `N ≥ 6`, any `now` and any `offset`
(also with `|offset| > N`), the concatenation `above ++ below` is the
image of 6 pairwise-distinct indices of the list. -/
theorem claim3_no_duplicates (ms : List Milestone) (now offset : Int)
    (hs : SortedByTs ms) (h6 : 6 ≤ ms.length) :
    ∃ idxs : List Nat,
      (updateVisibleMilestones ms now offset).1
          ++ (updateVisibleMilestones ms now offset).2
        = idxs.map (fun i => ms.getD i default)
      ∧ idxs.Nodup ∧ idxs.length = 6 ∧ ∀ i ∈ idxs, i < ms.length := by
  have hsort := sortByTimestamp_eq_of_sorted hs
  have h0 : ¬ (ms.length = 0) := by omega
  have hlt : ¬ (ms.length < 6) := by omega
  refine ⟨windowIndices ms.length
      ((if pastCountOf ms now ≥ 3 then (pastCountOf ms now : Int) - 3
        else max 0 ((pastCountOf ms now : Int) - 3)) + offset),
    ?_, windowIndices_nodup _ _ h6, ?_, ?_⟩
  · simp only [updateVisibleMilestones, hsort]
    rw [if_neg h0, if_neg hlt]
    apply take3_drop3_of_length_six
    simp [windowIndices]
    omega
  · simp [windowIndices]
    omega
  · intro i hi
    unfold windowIndices at hi
    simp only [List.mem_map, List.mem_range] at hi
    obtain ⟨j, _, rfl⟩ := hi
    exact wrapIndex_lt _ _ _ (by omega)

/-- The example milestone set of spec §8:
timestamps `[100, 200, 300, 400, 500, 600, 700]`. -/
def spec7Example : List Milestone :=
  [ ⟨100, "m100", none⟩, ⟨200, "m200", none⟩, ⟨300, "m300", none⟩,
    ⟨400, "m400", none⟩, ⟨500, "m500", none⟩, ⟨600, "m600", none⟩,
    ⟨700, "m700", none⟩ ]

/-- Witness for C3 on the 7-element example with `offset = -12`,
whose magnitude exceeds `N = 7`. -/
theorem claim3_no_duplicates_witness :
    SortedByTs spec7Example ∧ 6 ≤ spec7Example.length
      ∧ ∃ idxs : List Nat,
          (updateVisibleMilestones spec7Example 350 (-12)).1
              ++ (updateVisibleMilestones spec7Example 350 (-12)).2
            = idxs.map (fun i => spec7Example.getD i default)
          ∧ idxs.Nodup ∧ idxs.length = 6 ∧ ∀ i ∈ idxs, i < spec7Example.length :=
  ⟨by decide, by decide,
    claim3_no_duplicates spec7Example 350 (-12) (by decide) (by decide)⟩

/-- `pastCount` never exceeds the list length. -/
lemma pastCountOf_le_length (ms : List Milestone) (now : Int) :
    pastCountOf ms now ≤ ms.length :=
  List.findIdx_le_length _

/-- Every milestone strictly before the past/future boundary is past. -/
lemma timestamp_le_of_lt_pastCount {ms : List Milestone} {now : Int} {i : Nat}
    (hi : i < pastCountOf ms now) (hlen : i < ms.length) :
    (ms.get ⟨i, hlen⟩).timestamp ≤ now := by
  unfold pastCountOf at hi
  have h := List.not_of_lt_findIdx (p := fun m : Milestone => decide (m.timestamp > now)) hi
  simp only [List.get_eq_getElem]
  simp only [decide_eq_false_iff_not, not_lt] at h
  exact h

/-- The milestone at the boundary index (when it exists) is future. -/
lemma timestamp_gt_at_pastCount {ms : List Milestone} {now : Int}
    (hpc : pastCountOf ms now < ms.length) :
    now < (ms.get ⟨pastCountOf ms now, hpc⟩).timestamp := by
  unfold pastCountOf at hpc ⊢
  have h := @List.findIdx_getElem Milestone
    (fun m : Milestone => decide (m.timestamp > now)) ms hpc
  simp only [List.get_eq_getElem]
  simpa using h

/-- Timestamps are monotone along a sorted milestone list. -/
lemma sorted_ts_mono {ms : List Milestone} (hs : SortedByTs ms) {i j : Nat}
    (hij : i ≤ j) (hj : j < ms.length) :
    (ms.get ⟨i, lt_of_le_of_lt hij hj⟩).timestamp ≤ (ms.get ⟨j, hj⟩).timestamp := by
  rcases lt_or_eq_of_le hij with hlt | rfl
  · have := List.pairwise_iff_getElem.mp hs i j (lt_of_le_of_lt hij hj) hj hlt
    simpa using this
  · rfl

/-- CLAIM C4: with `N ≥ 6`, `offset = 0` and `pastCount ≥ 3`, the `above`
sequence is the three milestones just before the past/future boundary,
all of them past, and its last element has the greatest timestamp `≤ now`
in the whole list. -/
theorem claim4_boundary (ms : List Milestone) (now : Int)
    (hs : SortedByTs ms) (h6 : 6 ≤ ms.length)
    (h3 : 3 ≤ pastCountOf ms now) :
    (updateVisibleMilestones ms now 0).1
        = [ms.getD (pastCountOf ms now - 3) default,
           ms.getD (pastCountOf ms now - 2) default,
           ms.getD (pastCountOf ms now - 1) default]
      ∧ (∀ m ∈ (updateVisibleMilestones ms now 0).1, m.timestamp ≤ now)
      ∧ (∀ i, (hi : i < ms.length) → (ms.get ⟨i, hi⟩).timestamp ≤ now →
          (ms.get ⟨i, hi⟩).timestamp
            ≤ (ms.getD (pastCountOf ms now - 1) default).timestamp) := by
  have hsort := sortByTimestamp_eq_of_sorted hs
  have hpcN := pastCountOf_le_length ms now
  have h0 : ¬ (ms.length = 0) := by omega
  have hlt : ¬ (ms.length < 6) := by omega
  set pc := pastCountOf ms now with hpc
  have hwrap : ∀ i : Nat, i < 3 →
      wrapIndex (((pc : Int) - 3) + 0) i ms.length = pc - 3 + i := by
    intro i hi
    have he := wrapIndex_eq_emod (((pc : Int) - 3) + 0) i ms.length (by omega)
    rw [Int.emod_eq_of_lt (by omega) (by omega)] at he
    omega
  have habove : (updateVisibleMilestones ms now 0).1
      = [ms.getD (pc - 3) default, ms.getD (pc - 2) default,
         ms.getD (pc - 1) default] := by
    simp only [updateVisibleMilestones, hsort]
    rw [if_neg h0, if_neg hlt]
    rw [if_pos (show pc ≥ 3 from h3)]
    have hmin : min 6 ms.length = 6 := by omega
    simp only [windowIndices, hmin]
    have hr6 : List.range 6 = [0, 1, 2, 3, 4, 5] := rfl
    rw [hr6]
    simp only [List.map_cons, List.map_nil, List.take_cons, List.take_nil]
    rw [hwrap 0 (by omega), hwrap 1 (by omega), hwrap 2 (by omega)]
    have e0 : pc - 3 + 0 = pc - 3 := by omega
    have e1 : pc - 3 + 1 = pc - 2 := by omega
    have e2 : pc - 3 + 2 = pc - 1 := by omega
    rw [e0, e1, e2]
    rfl
  refine ⟨habove, ?_, ?_⟩
  · intro m hm
    rw [habove] at hm
    have hget : ∀ k : Nat, k < pc →
        (ms.getD k default).timestamp ≤ now := by
      intro k hk
      have hklen : k < ms.length := by omega
      rw [List.getD_eq_getElem ms default hklen]
      exact timestamp_le_of_lt_pastCount hk hklen
    simp only [List.mem_cons, List.not_mem_nil, or_false] at hm
    rcases hm with rfl | rfl | rfl
    · exact hget _ (by omega)
    · exact hget _ (by omega)
    · exact hget _ (by omega)
  · intro i hi hpast
    have hlast : i ≤ pc - 1 ∨ pc ≤ i := by omega
    have hp1len : pc - 1 < ms.length := by omega
    rw [List.getD_eq_getElem ms default hp1len]
    rcases hlast with hle | hge
    · have := sorted_ts_mono hs hle hp1len
      simpa using this
    · exfalso
      have hpclen : pc < ms.length := by omega
      have hgt := timestamp_gt_at_pastCount (show pastCountOf ms now < ms.length from hpclen)
      simp only [← hpc] at hgt
      have := sorted_ts_mono hs hge hi
      simp only [List.get_eq_getElem] at this hgt hpast
      omega

/-- Witness for C4 on the 7-element example at `now = 350`
(`pastCount = 3`). -/
theorem claim4_boundary_witness :
    SortedByTs spec7Example ∧ 6 ≤ spec7Example.length
      ∧ 3 ≤ pastCountOf spec7Example 350
      ∧ ((updateVisibleMilestones spec7Example 350 0).1
            = [spec7Example.getD (pastCountOf spec7Example 350 - 3) default,
               spec7Example.getD (pastCountOf spec7Example 350 - 2) default,
               spec7Example.getD (pastCountOf spec7Example 350 - 1) default]
          ∧ (∀ m ∈ (updateVisibleMilestones spec7Example 350 0).1,
              m.timestamp ≤ 350)
          ∧ (∀ i, (hi : i < spec7Example.length) →
              (spec7Example.get ⟨i, hi⟩).timestamp ≤ 350 →
              (spec7Example.get ⟨i, hi⟩).timestamp
                ≤ (spec7Example.getD (pastCountOf spec7Example 350 - 1)
                    default).timestamp)) :=
  ⟨by decide, by decide, by decide,
    claim4_boundary spec7Example 350 (by decide) (by decide) (by decide)⟩

/-- CLAIM C5: `scrollMilestones(direction)` with `direction ∈ {-1, +1}`
leaves the whole state unchanged when the list has at most 6 entries, and
otherwise adds `direction` to the scroll offset. -/
theorem claim5_scroll (s : ClockState) (direction : Int)
    (_hdir : direction = -1 ∨ direction = 1) :
    (s.allMilestones.length ≤ 6 → scrollMilestones s direction = s)
      ∧ (6 < s.allMilestones.length →
          (scrollMilestones s direction).milestoneOffset
            = s.milestoneOffset + direction) := by
  constructor
  · intro h
    unfold scrollMilestones
    rw [if_pos h]
  · intro h
    unfold scrollMilestones
    rw [if_neg (by omega)]
    rfl

/-- A concrete clock state holding the 3-element fallback list. -/
def fallbackState : ClockState :=
  { allMilestones := getFallbackMilestones
    currentTimestamp := 0
    milestoneOffset := 2
    visibleTop := []
    visibleBottom := [] }

/-- Witness for C5: a 3-element state is unchanged by a scroll. -/
theorem claim5_scroll_witness :
    ((-1 : Int) = -1 ∨ (-1 : Int) = 1)
      ∧ (fallbackState.allMilestones.length ≤ 6 →
          scrollMilestones fallbackState (-1) = fallbackState)
      ∧ (6 < fallbackState.allMilestones.length →
          (scrollMilestones fallbackState (-1)).milestoneOffset
            = fallbackState.milestoneOffset + (-1)) :=
  ⟨Or.inl rfl,
    (claim5_scroll fallbackState (-1) (Or.inl rfl)).1,
    (claim5_scroll fallbackState (-1) (Or.inl rfl)).2⟩

/-- CLAIM C6: a milestone card is classified `past` exactly when its
timestamp is at most `now`; the boundary `timestamp = now` is past. -/
theorem claim6_classification (m : Milestone) (now : Int) :
    (milestoneCardClass m now = "past" ↔ m.timestamp ≤ now)
      ∧ (m.timestamp = now → milestoneCardClass m now = "past") := by
  constructor
  · unfold milestoneCardClass isPastMilestone
    by_cases h : m.timestamp ≤ now
    · simp [h]
    · simp [h]
  · intro h
    unfold milestoneCardClass isPastMilestone
    simp [h]

/-- Witness for C6: a milestone whose timestamp equals `now` is `past`. -/
theorem claim6_classification_witness :
    milestoneCardClass ⟨5, "x", none⟩ 5 = "past" :=
  (claim6_classification ⟨5, "x", none⟩ 5).2 rfl

/-- CLAIM C7: the countdown value is `|timestamp - now|` seconds and the
direction label is `ago` exactly when `timestamp ≤ now`; at
`timestamp = 1000000000`, `now = 1000000100` this gives `100` / `ago`. -/
theorem claim7_countdown (ts now : Int) :
    (calculateCountdown ts now).totalSeconds = (ts - now).natAbs
      ∧ ((formatCountdownUnix (calculateCountdown ts now)).direction
          = if ts ≤ now then "ago" else "from now")
      ∧ (calculateCountdown 1000000000 1000000100).totalSeconds = 100
      ∧ (formatCountdownUnix
          (calculateCountdown 1000000000 1000000100)).direction = "ago" := by
  refine ⟨rfl, ?_, by decide, by decide⟩
  unfold formatCountdownUnix calculateCountdown
  by_cases h : ts ≤ now
  · simp [h]
  · simp [h]

/-- The failure condition of milestone loading: fetch failure, malformed
document, or zero records surviving validation (both `throw` branches of
`validateMilestoneData`). -/
def loadingFailed (fr : FetchResult) : Bool :=
  match fr with
  | .fetchError => true
  | .ok data =>
    match validateMilestoneData data with
    | .error _ => true
    | .ok _ => false

/-- CLAIM C8: whenever loading fails, the stored milestone set is exactly
the 3 hardcoded fallback milestones, whose timestamps are the 1-billion,
2-billion and `2147483647` landmarks — so the windowing logic still
receives a non-empty set. -/
theorem claim8_fallback (fr : FetchResult) (h : loadingFailed fr = true) :
    loadMilestones fr = getFallbackMilestones
      ∧ getFallbackMilestones.map Milestone.timestamp
          = [1000000000, 2000000000, 2147483647]
      ∧ loadMilestones fr ≠ [] := by
  have hload : loadMilestones fr = getFallbackMilestones := by
    cases fr with
    | fetchError => rfl
    | ok data =>
      cases hv : validateMilestoneData data with
      | error e => simp [loadMilestones, hv]
      | ok valid =>
        exfalso
        simp [loadingFailed, hv] at h
  refine ⟨hload, by decide, ?_⟩
  rw [hload]
  decide

/-- Witness for C8: a document whose `milestones` field is not an array. -/
theorem claim8_fallback_witness :
    loadingFailed (FetchResult.ok none) = true
      ∧ (loadMilestones (FetchResult.ok none) = getFallbackMilestones
          ∧ getFallbackMilestones.map Milestone.timestamp
              = [1000000000, 2000000000, 2147483647]
          ∧ loadMilestones (FetchResult.ok none) ≠ []) :=
  ⟨by decide, claim8_fallback (FetchResult.ok none) (by decide)⟩

/-- The sort of `loadMilestones` establishes the `MilestoneSet` ordering
invariant. -/
lemma sortByTimestamp_sorted (l : List Milestone) :
    SortedByTs (sortByTimestamp l) := by
  have h := @List.sorted_mergeSort Milestone tsLe
    (fun a b c hab hbc => by
      simp only [tsLe, decide_eq_true_eq] at hab hbc ⊢
      omega)
    (fun a b => by
      simp only [tsLe, Bool.or_eq_true, decide_eq_true_eq]
      omega)
    l
  exact h.imp (fun hab => by simpa [tsLe] using hab)

/-- Records kept by the validation filter have a non-negative numeric
timestamp and a description whose trim is non-empty. -/
lemma validRecord_spec {r : RawRecord} (h : validRecord (some r) = true) :
    (0 ≤ (toMilestone r).timestamp) ∧ (toMilestone r).description ≠ "" := by
  unfold validRecord at h
  simp only [Bool.and_eq_true] at h
  obtain ⟨ht, hd⟩ := h
  unfold toMilestone
  cases hts : r.timestamp with
  | num n =>
    cases hds : r.description with
    | str s =>
      rw [hts] at ht
      rw [hds] at hd
      simp only [decide_eq_true_eq] at ht hd
      refine ⟨by simpa using ht, ?_⟩
      simp only [hds]
      intro hemp
      apply hd
      rw [hemp]
      rfl
    | num k => rw [hds] at hd; simp at hd
    | other => rw [hds] at hd; simp at hd
  | str t => rw [hts] at ht; simp at ht
  | other => rw [hts] at ht; simp at ht

/-- Members of a successfully validated batch pass the filter. -/
lemma mem_validate {data : Option (List (Option RawRecord))}
    {valid : List RawRecord} (hv : validateMilestoneData data = .ok valid)
    {r : RawRecord} (hr : r ∈ valid) : validRecord (some r) = true := by
  cases data with
  | none => simp [validateMilestoneData] at hv
  | some arr =>
    simp only [validateMilestoneData] at hv
    split at hv
    · simp at hv
    · simp only [Except.ok.injEq] at hv
      subst hv
      rw [List.mem_filterMap] at hr
      obtain ⟨a, ha, hav⟩ := hr
      rw [List.mem_filter] at ha
      rw [hav] at ha
      exact ha.2

/-- CLAIM C9: every milestone set `loadMilestones` can store — fallback
included — has at most 20 entries, only non-negative timestamps and
non-empty descriptions, and is sorted ascending by timestamp. -/
theorem claim9_load_invariants (fr : FetchResult) :
    (loadMilestones fr).length ≤ 20
      ∧ (∀ m ∈ loadMilestones fr, 0 ≤ m.timestamp ∧ m.description ≠ "")
      ∧ SortedByTs (loadMilestones fr) := by
  cases fr with
  | fetchError => exact ⟨by decide, by decide, by decide⟩
  | ok data =>
    cases hv : validateMilestoneData data with
    | error e =>
      simp only [loadMilestones, hv]
      exact ⟨by decide, by decide, by decide⟩
    | ok valid =>
      simp only [loadMilestones, hv]
      refine ⟨?_, ?_, sortByTimestamp_sorted _⟩
      · unfold sortByTimestamp
        rw [List.length_mergeSort]
        simp
      · intro m hm
        unfold sortByTimestamp at hm
        rw [List.mem_mergeSort] at hm
        have hm' := List.mem_of_mem_take hm
        rw [List.mem_map] at hm'
        obtain ⟨r, hr, rfl⟩ := hm'
        exact validRecord_spec (mem_validate hv hr)

/-- Witness for C9 at the fetch-failure input (fallback set). -/
theorem claim9_load_invariants_witness :
    (loadMilestones FetchResult.fetchError).length ≤ 20
      ∧ (∀ m ∈ loadMilestones FetchResult.fetchError,
          0 ≤ m.timestamp ∧ m.description ≠ "")
      ∧ SortedByTs (loadMilestones FetchResult.fetchError) :=
  claim9_load_invariants FetchResult.fetchError

/-- The digit groups concatenate back to the original character list. -/
lemma groupDigitsAux_flatten (l : List Char) :
    (groupDigitsAux l).flatten = l := by
  induction l using groupDigitsAux.induct with
  | case1 l h0 => rw [groupDigitsAux]; simp [List.length_eq_zero.mp h0]
  | case2 l h0 h3 => rw [groupDigitsAux]; simp [h0, h3]
  | case3 l h0 h3 ih =>
    rw [groupDigitsAux]
    rw [dif_neg h0, dif_neg h3]
    rw [List.flatten_append]
    simp only [List.flatten_cons, List.flatten_nil, List.append_nil]
    rw [ih, List.take_append_drop]

/-- Every digit group has between 1 and 3 characters. -/
lemma groupDigitsAux_mem_len (l : List Char) :
    ∀ g ∈ groupDigitsAux l, 1 ≤ g.length ∧ g.length ≤ 3 := by
  induction l using groupDigitsAux.induct with
  | case1 l h0 => rw [groupDigitsAux]; simp [h0]
  | case2 l h0 h3 =>
    rw [groupDigitsAux]
    simp only [dif_neg h0, dif_pos h3]
    intro g hg
    simp at hg
    subst hg
    omega
  | case3 l h0 h3 ih =>
    rw [groupDigitsAux]
    rw [dif_neg h0, dif_neg h3]
    intro g hg
    rw [List.mem_append] at hg
    rcases hg with hg | hg
    · exact ih g hg
    · simp at hg
      subst hg
      simp [List.length_drop]
      omega

/-- Every digit group after the first has exactly 3 characters. -/
lemma groupDigitsAux_tail_len (l : List Char) :
    ∀ g ∈ (groupDigitsAux l).tail, g.length = 3 := by
  induction l using groupDigitsAux.induct with
  | case1 l h0 => rw [groupDigitsAux]; simp [h0]
  | case2 l h0 h3 =>
    rw [groupDigitsAux]
    rw [dif_neg h0, dif_pos h3]
    intro g hg
    simp at hg
  | case3 l h0 h3 ih =>
    rw [groupDigitsAux]
    rw [dif_neg h0, dif_neg h3]
    intro g hg
    rcases hx : groupDigitsAux (l.take (l.length - 3)) with _ | ⟨a, as⟩
    · rw [hx] at hg; simp at hg
    · rw [hx] at hg
      rw [List.tail_append_of_ne_nil (by simp)] at hg
      rw [List.mem_append] at hg
      rcases hg with hg | hg
      · apply ih; rw [hx]; simpa using hg
      · simp at hg
        subst hg
        simp [List.length_drop]
        omega

/-- Concatenating strings collects their character data. -/
lemma foldl_append_data (gs : List String) : ∀ acc : String,
    (gs.foldl (· ++ ·) acc).data = acc.data ++ (gs.map String.data).flatten := by
  induction gs with
  | nil => intro acc; simp
  | cons g gs ih =>
    intro acc
    simp only [List.foldl_cons, List.map_cons, List.flatten_cons]
    rw [ih, String.data_append, List.append_assoc]

/-- CLAIM C10: for every `n : Nat`, the digit groups of
`createSpacedTimestamp` joined in order give back exactly the decimal
string of `n`, every group after the first has exactly 3 digits, and
every group (the first included) has between 1 and 3 digits. -/
theorem claim10_digit_groups (n : Nat) :
    String.join (digitGroups (Nat.repr n)) = Nat.repr n
      ∧ (∀ g ∈ (digitGroups (Nat.repr n)).tail, g.length = 3)
      ∧ (∀ g ∈ digitGroups (Nat.repr n), 1 ≤ g.length ∧ g.length ≤ 3) := by
  refine ⟨?_, ?_, ?_⟩
  · apply String.ext
    show ((digitGroups (Nat.repr n)).foldl (· ++ ·) "").data = _
    rw [foldl_append_data]
    unfold digitGroups
    rw [List.map_map]
    have hdm : (String.data ∘ String.mk) = id := rfl
    rw [hdm, List.map_id, groupDigitsAux_flatten]
    rfl
  · intro g hg
    unfold digitGroups at hg
    rcases hx : groupDigitsAux (Nat.repr n).data with _ | ⟨a, as⟩
    · rw [hx] at hg; simp at hg
    · rw [hx] at hg
      simp only [List.map_cons, List.tail_cons] at hg
      rw [List.mem_map] at hg
      obtain ⟨cs, hcs, rfl⟩ := hg
      rw [String.length_mk]
      apply groupDigitsAux_tail_len (Nat.repr n).data
      rw [hx]
      simpa using hcs
  · intro g hg
    unfold digitGroups at hg
    rw [List.mem_map] at hg
    obtain ⟨cs, hcs, rfl⟩ := hg
    rw [String.length_mk]
    exact groupDigitsAux_mem_len _ cs hcs

/-- Witness for C10 at `n = 1234567890`. -/
theorem claim10_digit_groups_witness :
    String.join (digitGroups (Nat.repr 1234567890)) = Nat.repr 1234567890
      ∧ (∀ g ∈ (digitGroups (Nat.repr 1234567890)).tail, g.length = 3)
      ∧ (∀ g ∈ digitGroups (Nat.repr 1234567890),
          1 ≤ g.length ∧ g.length ≤ 3) :=
  claim10_digit_groups 1234567890
